import Mathlib

/-!
Verification development for the unsubscribe resolution engine of the
fasttail repository (src/unsubscribe.py).  The Python source is shallowly
embedded: pure helpers become Lean functions, the two HTMLParser subclasses
become explicit state machines over an HTML event stream, and the network
side of the Action Executor is abstracted as an oracle from requests to
results.  Character-level behaviour (regular-expression vocabulary tests,
str.strip, str.lower, substring tests) is modelled for ASCII text, which is
what every vocabulary pattern in the source consists of.
-/

namespace Fasttail

/-! ## Python string primitives -/

/-- Whitespace set of Python's str.strip and of the regex class backslash-s
(space, tab, newline, carriage return, vertical tab, form feed). -/
def pyIsSpace (c : Char) : Bool :=
  c = ' ' || c = '\t' || c = '\n' || c = '\r' || c = '\x0b' || c = '\x0c'

/-- Python str.lower, restricted to ASCII (every pattern in the source is
ASCII). -/
def pyLower (s : String) : String := String.mk (s.data.map Char.toLower)

/-- Python str.upper, restricted to ASCII. -/
def pyUpper (s : String) : String := String.mk (s.data.map Char.toUpper)

/-- Python str.strip with no argument: drop leading and trailing
whitespace. -/
def pyStrip (s : String) : String :=
  String.mk (((s.data.dropWhile pyIsSpace).reverse.dropWhile pyIsSpace).reverse)

/-- Python string-join with a single space separator. -/
def joinSpace : List String → String
  | [] => ""
  | [x] => x
  | x :: xs => x ++ " " ++ joinSpace xs

/-- Boolean list-prefix test on characters. -/
def isPrefixL : List Char → List Char → Bool
  | [], _ => true
  | _ :: _, [] => false
  | a :: as, b :: bs => a = b && isPrefixL as bs

/-- Substring search on character lists (Python's needle in haystack). -/
def containsAt (needle : List Char) : List Char → Bool
  | [] => isPrefixL needle []
  | c :: cs => isPrefixL needle (c :: cs) || containsAt needle cs

/-- Python substring containment test, needle in haystack. -/
def containsSub (needle hay : String) : Bool := containsAt needle.data hay.data

/-- Python str.startswith. -/
def startsWithL (p s : String) : Bool := isPrefixL p.data s.data

/-! ## Regular-expression matcher

A pattern denotes a function from a character list to the list of suffixes
remaining after some prefix matched the pattern (nondeterministic matcher).
This is enough to decide Python's re.search used by the source. -/

def RxM : Type := List Char → List (List Char)

/-- Literal pattern. -/
def mlit (s : String) : RxM := fun cs =>
  if isPrefixL s.data cs then [cs.drop s.data.length] else []

/-- Sequential composition of patterns. -/
def mseq (a b : RxM) : RxM := fun cs => (a cs).flatMap b

/-- Alternation of a list of patterns. -/
def malts (l : List RxM) : RxM := fun cs => l.flatMap (fun m => m cs)

/-- Alternation of two patterns. -/
def malt (a b : RxM) : RxM := fun cs => a cs ++ b cs

/-- Optional pattern (regex question mark). -/
def mopt (a : RxM) : RxM := fun cs => cs :: a cs

/-- Single character from a class. -/
def mcls (p : Char → Bool) : RxM := fun cs =>
  match cs with
  | [] => []
  | c :: rest => if p c then [rest] else []

/-- One or more characters from a class (regex plus on a class). -/
def mclsPlus (p : Char → Bool) : List Char → List (List Char)
  | [] => []
  | c :: cs => if p c then cs :: mclsPlus p cs else []

/-- Up to n arbitrary non-newline characters (regex dot with a bounded
counted repetition, Python default mode where dot excludes newline). -/
def mgap : Nat → List Char → List (List Char)
  | _, [] => [[]]
  | 0, cs => [cs]
  | n + 1, c :: cs => (c :: cs) :: (if c = '\n' then [] else mgap n cs)

/-- Any single non-newline character (regex dot). -/
def manyc : RxM := mcls (fun c => decide (c ≠ '\n'))

/-- re.search: does the pattern match starting at any position? -/
def msearch (m : RxM) : List Char → Bool
  | [] => !(m []).isEmpty
  | c :: cs => !(m (c :: cs)).isEmpty || msearch m cs

/-! ## Vocabulary patterns of the source (module constants) -/

/-- The optional connector class of UNSUB_PATTERNS: whitespace, underscore
or hyphen, zero or one occurrence. -/
def connOpt : RxM := mopt (mcls (fun c => pyIsSpace c || c = '_' || c = '-'))

/-- UNSUB_PATTERNS of src/unsubscribe.py: words that suggest an unsubscribe
link (matched case-insensitively; literals given lowercased). -/
def UNSUB_PATTERNS : RxM := malts
  [ mlit "unsubscribe"
  , mseq (mlit "opt") (mseq connOpt (mlit "out"))
  , mseq (mlit "email") (mseq connOpt (mlit "preferences"))
  , mseq (mlit "manage") (mseq connOpt (mseq (mlit "subscription") (mopt (mlit "s"))))
  , mseq (mlit "remove") (mseq connOpt (mlit "me"))
  , mseq (mlit "stop") (mseq connOpt (mlit "receiving")) ]

/-- SUCCESS_PATTERNS of src/unsubscribe.py: phrases that indicate success on
a response page (matched case-insensitively; literals given lowercased). -/
def SUCCESS_PATTERNS : RxM := malts
  [ mseq (mlit "successfully") (mseq (mclsPlus pyIsSpace) (mlit "unsubscribed"))
  , mseq (mlit "you") (mseq manyc (mseq (mlit "ve been")
      (malt (mlit " removed") (mlit " unsubscribed"))))
  , mseq (mlit "unsubscribe") (mseq (mopt (mlit "d")) (mseq (mclsPlus pyIsSpace)
      (malts [mlit "successful", mlit "confirmed", mlit "complete"])))
  , mseq (mlit "removed from") (mseq (mgap 30) (malt (mlit "list") (mlit "mailing")))
  , mlit "no longer receive"
  , mseq (mlit "subscription") (mseq (mgap 20)
      (malts [mlit "cancelled", mlit "canceled", mlit "removed"]))
  , mseq (mlit "you") (mseq manyc (mlit "re unsubscribed"))
  , mseq (mlit "opt") (mseq manyc (mseq (mlit "out") (mseq (mgap 20)
      (malts [mlit "confirmed", mlit "complete", mlit "successful"])))) ]

/-- UNSUB_PATTERNS.search with IGNORECASE, modelled by lowercasing the
input. -/
def unsub_search (s : String) : Bool := msearch UNSUB_PATTERNS (pyLower s).data

/-- SUCCESS_PATTERNS.search with IGNORECASE, modelled by lowercasing the
input. -/
def success_search (s : String) : Bool := msearch SUCCESS_PATTERNS (pyLower s).data

/-! ## Header Extractor (parse_list_unsubscribe_header) -/

/-- All matches of the regular expression angle-bracket group: scan for an
opening bracket, take the nonempty run of characters up to the first closing
bracket, and continue after it.  Entries with a missing closing bracket are
not matched.  Fuel is the input length, which suffices because every step
consumes at least one character. -/
def find_bracketed : Nat → List Char → List (List Char)
  | 0, _ => []
  | _, [] => []
  | fuel + 1, c :: cs =>
    if c = '<' then
      let inner := cs.takeWhile (fun d => decide (d ≠ '>'))
      match cs.dropWhile (fun d => decide (d ≠ '>')) with
      | [] => []
      | _ :: rest => if inner = [] then find_bracketed fuel rest
                     else inner :: find_bracketed fuel rest
    else find_bracketed fuel cs

/-- The bracket-delimited entries of a header value, each stripped
(match.group(1).strip() in the source). -/
def header_uris (s : String) : List String :=
  (find_bracketed s.data.length s.data).map (fun l => pyStrip (String.mk l))

/-- Does a URI use the http or https scheme? -/
def isHttpUri (u : String) : Bool := startsWithL "http://" u || startsWithL "https://" u

/-- Does a URI use the mailto scheme? -/
def isMailtoUri (u : String) : Bool := startsWithL "mailto:" u

/-- The accumulation loop of parse_list_unsubscribe_header: http(s) URIs to
the first list, mailto URIs to the second, anything else dropped, preserving
order. -/
def partition_uris : List String → List String × List String
  | [] => ([], [])
  | u :: us =>
    let rest := partition_uris us
    if isHttpUri u then (u :: rest.1, rest.2)
    else if isMailtoUri u then (rest.1, u :: rest.2)
    else rest

/-- parse_list_unsubscribe_header of src/unsubscribe.py: an absent or empty
header yields two empty lists, otherwise the bracket-delimited URIs are
partitioned by scheme. -/
def parse_list_unsubscribe_header (header_value : Option String) :
    List String × List String :=
  match header_value with
  | none => ([], [])
  | some s => if s = "" then ([], []) else partition_uris (header_uris s)

/-! ## HTML event stream

html.parser.HTMLParser delivers markup as a stream of start-tag, end-tag and
character-data events (with convert_charrefs enabled, each maximal text run
arrives as one data event).  Tag and attribute names are lowercased by the
library.  Valueless attributes are modelled with an empty-string value; no
input of interest here uses them. -/

inductive HtmlEvent where
  | startTag (tag : String) (attrs : List (String × String))
  | endTag (tag : String)
  | data (s : String)
deriving DecidableEq, Repr

/-- Python dict(attrs).get(k): the value of the last binding of k, if any. -/
def attrGet (attrs : List (String × String)) (k : String) : Option String :=
  match attrs.reverse.find? (fun p => p.1 = k) with
  | some p => some p.2
  | none => none

/-- Python dict(attrs).get(k, d). -/
def attrGetD (attrs : List (String × String)) (k d : String) : String :=
  (attrGet attrs k).getD d

/-! ## HTML tokenizer

A model of the html.parser tokenization of well-formed markup, used to feed
the two extractor state machines when the source hands them a raw string.
Fuel is the input length; every recursive step consumes at least one
character. -/

/-- Characters allowed in a tag name. -/
def isTagNameChar (c : Char) : Bool := c.isAlphanum || c = '-' || c = '_' || c = ':'

/-- Does a character end an attribute name? -/
def isAttrNameEnd (c : Char) : Bool := pyIsSpace c || c = '=' || c = '>' || c = '/'

/-- Lowercase a character list into a string (names are lowercased by the
HTML library). -/
def lowerName (l : List Char) : String := String.mk (l.map Char.toLower)

/-- The single-quote character, written by code point. -/
def squote : Char := Char.ofNat 39

/-- Lex one attribute value: double-quoted, single-quoted, or a bare token
up to whitespace or the closing bracket of the tag. -/
def lexAttrValue (cs : List Char) : String × List Char :=
  match cs with
  | '"' :: rest =>
    (String.mk (rest.takeWhile (fun d => decide (d ≠ '"'))),
     (rest.dropWhile (fun d => decide (d ≠ '"'))).drop 1)
  | c :: rest =>
    if c = squote then
      (String.mk (rest.takeWhile (fun d => decide (d ≠ squote))),
       (rest.dropWhile (fun d => decide (d ≠ squote))).drop 1)
    else
      (String.mk (cs.takeWhile (fun d => !pyIsSpace d && decide (d ≠ '>'))),
       cs.dropWhile (fun d => !pyIsSpace d && decide (d ≠ '>')))
  | [] => ("", [])

/-- Lex the attribute list of a start tag, up to and including the closing
bracket.  Returns the attributes, whether the tag was self-closing, and the
rest of the input. -/
def lexAttrs : Nat → List Char → List (String × String) × Bool × List Char
  | 0, cs => ([], false, cs)
  | fuel + 1, cs =>
    match cs.dropWhile pyIsSpace with
    | [] => ([], false, [])
    | '>' :: rest => ([], false, rest)
    | '/' :: '>' :: rest => ([], true, rest)
    | '/' :: rest => lexAttrs fuel rest
    | '=' :: rest => lexAttrs fuel rest
    | c :: rest =>
      let cs1 := c :: rest
      let nm := cs1.takeWhile (fun d => !isAttrNameEnd d)
      let r1 := (cs1.dropWhile (fun d => !isAttrNameEnd d)).dropWhile pyIsSpace
      match r1 with
      | '=' :: r2 =>
        let vr := lexAttrValue (r2.dropWhile pyIsSpace)
        let rec2 := lexAttrs fuel vr.2
        ((lowerName nm, vr.1) :: rec2.1, rec2.2.1, rec2.2.2)
      | r1' =>
        let rec2 := lexAttrs fuel r1'
        ((lowerName nm, "") :: rec2.1, rec2.2.1, rec2.2.2)

/-- Tokenize markup into HTML events. -/
def tokenizeAux : Nat → List Char → List HtmlEvent
  | 0, _ => []
  | _, [] => []
  | fuel + 1, cs =>
    match cs with
    | '<' :: '/' :: rest =>
      let nm := rest.takeWhile (fun d => decide (d ≠ '>'))
      (match rest.dropWhile (fun d => decide (d ≠ '>')) with
       | '>' :: r2 =>
         HtmlEvent.endTag (lowerName (nm.takeWhile isTagNameChar)) :: tokenizeAux fuel r2
       | _ => [])
    | '<' :: '!' :: rest =>
      (match rest.dropWhile (fun d => decide (d ≠ '>')) with
       | '>' :: r2 => tokenizeAux fuel r2
       | _ => [])
    | '<' :: c :: rest =>
      if c.isAlpha then
        let nm := (c :: rest).takeWhile isTagNameChar
        let r1 := (c :: rest).dropWhile isTagNameChar
        let la := lexAttrs (r1.length + 1) r1
        let tag := lowerName nm
        if la.2.1 then
          HtmlEvent.startTag tag la.1 :: HtmlEvent.endTag tag :: tokenizeAux fuel la.2.2
        else
          HtmlEvent.startTag tag la.1 :: tokenizeAux fuel la.2.2
      else
        HtmlEvent.data "<" :: tokenizeAux fuel (c :: rest)
    | ['<'] => []
    | _ =>
      HtmlEvent.data (String.mk (cs.takeWhile (fun d => decide (d ≠ '<'))))
        :: tokenizeAux fuel (cs.dropWhile (fun d => decide (d ≠ '<')))

/-- Tokenize an HTML string (feed on a fresh parser). -/
def tokenize (s : String) : List HtmlEvent := tokenizeAux s.data.length s.data

/-! ## HTML Link Extractor (class UnsubLinkFinder) -/

structure LinkState where
  links : List (String × String)
  current_href : Option String
  current_text : List String
  in_a : Bool
deriving DecidableEq, Repr

/-- The fresh-parser state of UnsubLinkFinder. -/
def initLinkState : LinkState := ⟨[], none, [], false⟩

/-- One HTMLParser callback of UnsubLinkFinder: handle_starttag for anchors
captures the href and resets the text accumulator; handle_data accumulates
text while inside an anchor; handle_endtag for anchors emits a candidate
when the href is a nonempty absolute http(s) URL and the intent vocabulary
matches the accumulated text or the href. -/
def link_step (st : LinkState) (ev : HtmlEvent) : LinkState :=
  match ev with
  | .startTag tag attrs =>
    if tag = "a" then
      { st with in_a := true, current_text := [], current_href := attrGet attrs "href" }
    else st
  | .data s =>
    if st.in_a then { st with current_text := st.current_text ++ [s] } else st
  | .endTag tag =>
    if tag = "a" && st.in_a then
      let text := pyStrip (joinSpace st.current_text)
      let emitted :=
        match st.current_href with
        | none => []
        | some href =>
          if href = "" then []
          else if startsWithL "http://" href || startsWithL "https://" href then
            if unsub_search text || unsub_search href then [(href, text)] else []
          else []
      ⟨st.links ++ emitted, none, [], false⟩
    else st

/-- UnsubLinkFinder().feed(html).links. -/
def UnsubLinkFinder_links (html : String) : List (String × String) :=
  ((tokenize html).foldl link_step initLinkState).links

/-! ## HTML Form Extractor (class FormFinder) -/

structure Form where
  action : String
  method : String
  inputs : List (String × String)
  text : String
deriving DecidableEq, Repr

structure OpenForm where
  action : String
  method : String
  inputs : List (String × String)
deriving DecidableEq, Repr

structure FormState where
  forms : List Form
  current_form : Option OpenForm
  current_text : List String
deriving DecidableEq, Repr

/-- The fresh-parser state of FormFinder. -/
def initFormState : FormState := ⟨[], none, []⟩

/-- Python dict insertion: overwrite in place when the key is present, else
append (insertion order preserved, last value wins). -/
def dictInsert (d : List (String × String)) (k v : String) : List (String × String) :=
  if d.any (fun p => p.1 = k) then d.map (fun p => if p.1 = k then (k, v) else p)
  else d ++ [(k, v)]

/-- Python dict lookup on the association lists built by dictInsert. -/
def dictLookup (d : List (String × String)) (k : String) : Option String :=
  match d.find? (fun p => p.1 = k) with
  | some p => some p.2
  | none => none

/-- Python dict values in insertion order. -/
def dictValues (d : List (String × String)) : List String := d.map (fun p => p.2)

/-- One HTMLParser callback of FormFinder: a form start tag begins a fresh
descriptor (action defaulting to the empty string, method uppercased and
defaulting to GET) and resets the text accumulator; an input start tag while
inside a form records a named input (value defaulting to the empty string,
unnamed inputs dropped); data accumulates; a form end tag finalizes the
accumulated text and appends the descriptor. -/
def form_step (st : FormState) (ev : HtmlEvent) : FormState :=
  match ev with
  | .startTag tag attrs =>
    if tag = "form" then
      { st with
        current_form := some ⟨attrGetD attrs "action" "",
                              pyUpper (attrGetD attrs "method" "GET"), []⟩,
        current_text := [] }
    else if tag = "input" then
      match st.current_form with
      | some f =>
        (match attrGet attrs "name" with
         | some name =>
           if name = "" then st
           else
             let f2 : OpenForm :=
               { f with inputs := dictInsert f.inputs name (attrGetD attrs "value" "") }
             { st with current_form := some f2 }
         | none => st)
      | none => st
    else st
  | .data s =>
    match st.current_form with
    | some _ => { st with current_text := st.current_text ++ [s] }
    | none => st
  | .endTag tag =>
    match st.current_form with
    | some f =>
      if tag = "form" then
        ⟨st.forms ++ [⟨f.action, f.method, f.inputs, pyStrip (joinSpace st.current_text)⟩],
         none, []⟩
      else st
    | none => st

/-- FormFinder().feed(html).forms. -/
def FormFinder_forms (html : String) : List Form :=
  ((tokenize html).foldl form_step initFormState).forms

/-! ## Email record and find_unsub_links_in_html -/

/-- One entry of the htmlBody list: only its partId is consulted. -/
structure EmailPart where
  partId : Option String
deriving DecidableEq, Repr

/-- The fields of the fetched JMAP email record that the resolver reads.
bodyValues maps a part identifier to the decoded text of that part (the
value field of the JMAP body value object). -/
structure Email where
  header_list_unsubscribe : Option String
  header_list_unsubscribe_post : Option String
  htmlBody : List EmailPart
  bodyValues : List (String × String)
deriving Repr

/-- find_unsub_links_in_html of src/unsubscribe.py: run UnsubLinkFinder over
every HTML body part whose nonempty partId is present in bodyValues, and
concatenate the links in part order. -/
def find_unsub_links_in_html (email : Email) : List (String × String) :=
  email.htmlBody.flatMap (fun part =>
    match part.partId with
    | none => []
    | some pid =>
      if pid = "" then []
      else
        match attrGet email.bodyValues pid with
        | none => []
        | some html => UnsubLinkFinder_links html)

/-! ## Outcomes, HTTP oracle, Action Executor -/

inductive OutcomeStatus where
  | success
  | likely_success
  | manual
  | error
deriving DecidableEq, Repr

structure Outcome where
  status : OutcomeStatus
  message : String
deriving DecidableEq, Repr

/-- A network response as the executor observes it: final status code, body
text, and final (post-redirect) URL. -/
structure HttpResponse where
  status_code : Nat
  text : String
  url : String
deriving DecidableEq, Repr

/-- Result of one network call: a response, or a requests.RequestException
with its description. -/
inductive HttpResult where
  | ok (r : HttpResponse)
  | exc (msg : String)
deriving DecidableEq, Repr

/-- The three request shapes the executor issues: a POST with a raw body, a
POST with form-encoded data, and a GET with query parameters. -/
inductive HttpRequest where
  | postRaw (url : String) (body : String)
  | postForm (url : String) (payload : List (String × String))
  | getForm (url : String) (params : List (String × String))
deriving DecidableEq, Repr

/-- The URL a request is sent to. -/
def reqUrl : HttpRequest → String
  | .postRaw u _ => u
  | .postForm u _ => u
  | .getForm u _ => u

/-- The network oracle: what each request returns in a given run. -/
def Net : Type := HttpRequest → HttpResult

/-- Modelled from the spec and the Python standard library: urljoin of
urllib.parse (external to the repository), restricted to absolute http(s)
base URLs as produced by the executor.  An empty reference yields the base;
an absolute reference replaces it; a scheme-relative reference keeps the
scheme; a path-absolute reference keeps the origin; otherwise the reference
is resolved against the base directory. -/
def urljoin (base rel : String) : String :=
  if rel = "" then base
  else if startsWithL "http://" rel || startsWithL "https://" rel then rel
  else if startsWithL "//" rel then
    (if startsWithL "https://" base then "https:" else "http:") ++ rel
  else if !(startsWithL "http://" base || startsWithL "https://" base) then rel
  else
    let schemeLen := if startsWithL "https://" base then 8 else 7
    let afterScheme := base.data.drop schemeLen
    let netloc := afterScheme.takeWhile (fun c => decide (c ≠ '/'))
    let origin := String.mk (base.data.take schemeLen ++ netloc)
    if startsWithL "/" rel then origin ++ rel
    else
      let path := afterScheme.dropWhile (fun c => decide (c ≠ '/'))
      let dir := (path.reverse.dropWhile (fun c => decide (c ≠ '/'))).reverse
      origin ++ (if dir = [] then "/" else String.mk dir) ++ rel

/-- attempt_one_click_unsubscribe of src/unsubscribe.py: the RFC 8058
one-click POST, with the trace of requests issued. -/
def attempt_one_click_unsubscribe (net : Net) (url : String) :
    Outcome × List HttpRequest :=
  let req := HttpRequest.postRaw url "List-Unsubscribe=One-Click"
  match net req with
  | .exc e => (⟨.error, e⟩, [req])
  | .ok r =>
    if r.status_code < 400 then
      if success_search r.text then
        (⟨.success, "Server confirmed unsubscribe"⟩, [req])
      else
        (⟨.likely_success,
          "Server returned " ++ toString r.status_code ++ " (one-click POST accepted)"⟩,
         [req])
    else (⟨.error, "Server returned " ++ toString r.status_code⟩, [req])

/-- The candidate test of attempt_get_unsubscribe: the form's text plus its
concatenated input values, lowercased, matches the intent vocabulary or
contains the substring confirm. -/
def form_is_unsub (form : Form) : Bool :=
  let form_text := pyLower form.text ++ pyLower (joinSpace (dictValues form.inputs))
  unsub_search form_text || containsSub "confirm" form_text

/-- Candidate selection of attempt_get_unsubscribe: the forms passing the
candidate test, or the single form on the page when none passed and exactly
one form exists. -/
def select_unsub_forms (forms : List Form) : List Form :=
  let unsub_forms := forms.filter form_is_unsub
  if unsub_forms.isEmpty && forms.length == 1 then forms else unsub_forms

/-- The action-resolution step of attempt_get_unsubscribe: an empty or hash
action falls back to the original request URL, otherwise the action is
joined against the final URL of the fetched page. -/
def form_action_url (url final_url action : String) : String :=
  if action = "" || action = "#" then url else urljoin final_url action

/-- The submission request attempt_get_unsubscribe builds for a candidate
form: POST with the inputs as data when the method is POST, else GET with
the inputs as query parameters. -/
def form_request (url final_url : String) (form : Form) : HttpRequest :=
  let action := form_action_url url final_url form.action
  if form.method = "POST" then HttpRequest.postForm action form.inputs
  else HttpRequest.getForm action form.inputs

/-- attempt_get_unsubscribe of src/unsubscribe.py: GET the URL; classify an
error status or a success-vocabulary body; otherwise extract forms, select a
candidate, submit the first candidate and classify the second response;
with no candidate, report manual.  Network exceptions anywhere become error
outcomes.  The request trace is returned alongside the outcome. -/
def attempt_get_unsubscribe (net : Net) (url : String) :
    Outcome × List HttpRequest :=
  let req := HttpRequest.getForm url []
  match net req with
  | .exc e => (⟨.error, e⟩, [req])
  | .ok r =>
    if 400 ≤ r.status_code then
      (⟨.error, "Server returned " ++ toString r.status_code⟩, [req])
    else if success_search r.text then
      (⟨.success, "Page confirms unsubscribe"⟩, [req])
    else
      match select_unsub_forms (FormFinder_forms r.text) with
      | [] =>
        (⟨.manual, "Page loaded but no confirmation detected; may need a browser"⟩, [req])
      | form :: _ =>
        let req2 := form_request url r.url form
        match net req2 with
        | .exc e => (⟨.error, e⟩, [req, req2])
        | .ok r2 =>
          if r2.status_code < 400 then
            if success_search r2.text then
              (⟨.success, "Confirmed unsubscribe via form submission"⟩, [req, req2])
            else
              (⟨.likely_success,
                "Form submitted, server returned " ++ toString r2.status_code⟩,
               [req, req2])
          else
            (⟨.error, "Form submission returned " ++ toString r2.status_code⟩, [req, req2])

/-! ## Strategy Resolver (run) -/

inductive Strategy where
  | one_click
  | header_url
  | html_link
  | no_mechanism
deriving DecidableEq, Repr

/-- The truthiness-and-containment test of strategy 1: the unsubscribe-post
header is present and its value contains the one-click marker. -/
def marker_in_post (post : Option String) : Bool :=
  match post with
  | none => false
  | some s => containsSub "List-Unsubscribe=One-Click" s

/-- The body-link choice of strategy 3: the first link whose anchor text
contains unsubscribe case-insensitively, else the first link. -/
def pick_best_link (links : List (String × String)) : Option (String × String) :=
  match links with
  | [] => none
  | first :: _ =>
    match links.find? (fun p => containsSub "unsubscribe" (pyLower p.2)) with
    | some p => some p
    | none => some first

/-- The observable result of one resolver invocation: the returned boolean,
the strategy branch taken (none when no email matched), the Outcome of the
executed strategy (none in dry-run or when nothing executed), and the trace
of executor requests. -/
structure RunReport where
  succeeded : Bool
  strategy : Option Strategy
  outcome : Option Outcome
  requests : List HttpRequest
deriving Repr

/-- The return-value test of run: status in (success, likely_success). -/
def outcome_ok (oc : Outcome) : Bool :=
  decide (oc.status = OutcomeStatus.success ∨ oc.status = OutcomeStatus.likely_success)

/-- run of src/unsubscribe.py, from the point where the email record has
been fetched (the JMAP client is an external collaborator): try the
one-click header strategy, then the header-URL strategy, then the HTML body
link strategy, else report that no mechanism was found.  In dry-run mode the
selected strategy is reported as successful without any executor call. -/
def run (net : Net) (dry_run : Bool) (fetched : Option Email) : RunReport :=
  match fetched with
  | none => ⟨false, none, none, []⟩
  | some email =>
    match (parse_list_unsubscribe_header email.header_list_unsubscribe).1 with
    | u :: _ =>
      if marker_in_post email.header_list_unsubscribe_post then
        if dry_run then ⟨true, some Strategy.one_click, none, []⟩
        else
          ⟨outcome_ok (attempt_one_click_unsubscribe net u).1, some Strategy.one_click,
           some (attempt_one_click_unsubscribe net u).1,
           (attempt_one_click_unsubscribe net u).2⟩
      else
        if dry_run then ⟨true, some Strategy.header_url, none, []⟩
        else
          ⟨outcome_ok (attempt_get_unsubscribe net u).1, some Strategy.header_url,
           some (attempt_get_unsubscribe net u).1,
           (attempt_get_unsubscribe net u).2⟩
    | [] =>
      match pick_best_link (find_unsub_links_in_html email) with
      | some best =>
        if dry_run then ⟨true, some Strategy.html_link, none, []⟩
        else
          ⟨outcome_ok (attempt_get_unsubscribe net best.1).1, some Strategy.html_link,
           some (attempt_get_unsubscribe net best.1).1,
           (attempt_get_unsubscribe net best.1).2⟩
      | none => ⟨false, some Strategy.no_mechanism, none, []⟩

/-! ## Helper lemmas -/

theorem isPrefixL_append (l r : List Char) : isPrefixL l (l ++ r) = true := by
  induction l with
  | nil => rfl
  | cons c cs ih => simp [isPrefixL, ih]

theorem containsAt_append (n p : List Char) : containsAt n (p ++ n) = true := by
  induction p with
  | nil =>
    cases n with
    | nil => rfl
    | cons c cs =>
      have h := isPrefixL_append (c :: cs) []
      simp at h
      simp [containsAt, h]
  | cons c p ih =>
    simp [containsAt, ih]

theorem containsSub_append (pre s : String) : containsSub s (pre ++ s) = true := by
  unfold containsSub
  rw [String.data_append]
  exact containsAt_append s.data pre.data

theorem http_not_mailto (u : String) : isHttpUri u = true → isMailtoUri u = false := by
  unfold isHttpUri isMailtoUri startsWithL
  have h1 : ("http://").data = ['h', 't', 't', 'p', ':', '/', '/'] := rfl
  have h2 : ("https://").data = ['h', 't', 't', 'p', 's', ':', '/', '/'] := rfl
  have h3 : ("mailto:").data = ['m', 'a', 'i', 'l', 't', 'o', ':'] := rfl
  rw [h1, h2, h3]
  cases hd : u.data with
  | nil => intro h; simp [isPrefixL] at h
  | cons c cs =>
    intro h
    simp [isPrefixL] at h ⊢
    rcases h with h | h
    · intro hc; exact absurd (h.1.trans hc.symm) (by decide)
    · intro hc; exact absurd (h.1.trans hc.symm) (by decide)

theorem mailto_not_http (u : String) : isMailtoUri u = true → isHttpUri u = false := by
  intro h
  cases hh : isHttpUri u with
  | false => rfl
  | true => rw [http_not_mailto u hh] at h; exact absurd h (by simp)

theorem partition_uris_eq (us : List String) :
    partition_uris us = (us.filter isHttpUri, us.filter isMailtoUri) := by
  induction us with
  | nil => rfl
  | cons u us ih =>
    by_cases h1 : isHttpUri u = true
    · simp [partition_uris, List.filter_cons, h1, http_not_mailto u h1, ih]
    · have h1' : isHttpUri u = false := by
        cases h : isHttpUri u
        · rfl
        · exact absurd h h1
      by_cases h2 : isMailtoUri u = true
      · simp [partition_uris, List.filter_cons, h1', h2, ih]
      · have h2' : isMailtoUri u = false := by
          cases h : isMailtoUri u
          · rfl
          · exact absurd h h2
        simp [partition_uris, List.filter_cons, h1', h2', ih]

/-! ## Claims -/

/-- C9: the success classifier is a case-insensitive vocabulary match
covering: successfully unsubscribed; you-ve been removed/unsubscribed;
unsubscribe(d) successful/confirmed/complete; removed from a list/mailing
with a gap of up to 30 characters; no longer receive; subscription
cancelled/canceled/removed; you-re unsubscribed; opt-out
confirmed/complete/successful with a tolerated gap.  In particular it
matches the sentence about successful unsubscription from this list and
does not match a thank-you-for-your-email body. -/
theorem C9_success_vocabulary :
    success_search "You have successfully unsubscribed from this list." = true ∧
    success_search "Thank you for your email" = false ∧
    success_search "SUCCESSFULLY  UNSUBSCRIBED" = true ∧
    success_search "you.ve been removed" = true ∧
    success_search "you have been removed" = false ∧
    success_search "you.ve been unsubscribed" = true ∧
    success_search "unsubscribe successful" = true ∧
    success_search "unsubscribed confirmed" = true ∧
    success_search "unsubscribe  complete" = true ∧
    success_search ("removed from" ++ String.mk (List.replicate 30 'x') ++ "list") = true ∧
    success_search ("removed from" ++ String.mk (List.replicate 31 'x') ++ "list") = false ∧
    success_search "removed from our mailing" = true ∧
    success_search "no longer receive" = true ∧
    success_search "subscription was cancelled" = true ∧
    success_search "subscription canceled" = true ∧
    success_search "your subscription has been removed" = true ∧
    success_search "you.re unsubscribed" = true ∧
    success_search "opt-out confirmed" = true ∧
    success_search "opt out is complete" = true ∧
    success_search "opt-out successful" = true := by
  refine ⟨?_, ?_, ?_, ?_, ?_, ?_, ?_, ?_, ?_, ?_, ?_, ?_, ?_, ?_, ?_, ?_, ?_, ?_, ?_, ?_⟩ <;> decide

/-- C7: the header extractor returns the angle-bracket-delimited URIs
partitioned into an http(s) list and a mailto list, each preserving header
order; bracketed URIs with other schemes and non-bracketed content are
ignored; an absent or empty header yields two empty lists; an entry with a
missing closing bracket is simply not matched. -/
theorem C7_header_extractor :
    parse_list_unsubscribe_header none = ([], []) ∧
    parse_list_unsubscribe_header (some "") = ([], []) ∧
    (∀ s : String, parse_list_unsubscribe_header (some s) =
      ((header_uris s).filter isHttpUri, (header_uris s).filter isMailtoUri)) ∧
    parse_list_unsubscribe_header
        (some "<https://a.example/u>, <mailto:m@x>, <ftp://z>, junk <https://b.example/v>") =
      (["https://a.example/u", "https://b.example/v"], ["mailto:m@x"]) ∧
    parse_list_unsubscribe_header (some "<mailto:m@x>, <https://a.example/u") =
      ([], ["mailto:m@x"]) := by
  refine ⟨rfl, rfl, ?_, by decide, by decide⟩
  intro s
  by_cases h : s = ""
  · subst h; simp [parse_list_unsubscribe_header, header_uris, find_bracketed]
  · simp [parse_list_unsubscribe_header, h, partition_uris_eq]

/-- C3: for every one-click POST attempt, a status of at least 400 yields an
error outcome with the status code in the message; a status below 400 with a
success-vocabulary body yields success; a status below 400 without a
vocabulary match yields likely_success; a network exception yields an error
outcome with the exception description (never propagating); and in
particular a 200 response with body OK yields likely_success. -/
theorem C3_one_click_outcomes (net : Net) (url : String) :
    (∀ r, net (HttpRequest.postRaw url "List-Unsubscribe=One-Click") = HttpResult.ok r →
       400 ≤ r.status_code →
       (attempt_one_click_unsubscribe net url).1.status = OutcomeStatus.error ∧
       containsSub (toString r.status_code)
         (attempt_one_click_unsubscribe net url).1.message = true) ∧
    (∀ r, net (HttpRequest.postRaw url "List-Unsubscribe=One-Click") = HttpResult.ok r →
       r.status_code < 400 → success_search r.text = true →
       (attempt_one_click_unsubscribe net url).1 =
         ⟨OutcomeStatus.success, "Server confirmed unsubscribe"⟩) ∧
    (∀ r, net (HttpRequest.postRaw url "List-Unsubscribe=One-Click") = HttpResult.ok r →
       r.status_code < 400 → success_search r.text = false →
       (attempt_one_click_unsubscribe net url).1.status = OutcomeStatus.likely_success) ∧
    (∀ e, net (HttpRequest.postRaw url "List-Unsubscribe=One-Click") = HttpResult.exc e →
       (attempt_one_click_unsubscribe net url).1 = ⟨OutcomeStatus.error, e⟩) ∧
    (∀ r, net (HttpRequest.postRaw url "List-Unsubscribe=One-Click") = HttpResult.ok r →
       r.status_code = 200 → r.text = "OK" →
       (attempt_one_click_unsubscribe net url).1.status = OutcomeStatus.likely_success) := by
  refine ⟨?_, ?_, ?_, ?_, ?_⟩
  · intro r hr hge
    have hlt : ¬ r.status_code < 400 := by omega
    constructor
    · simp [attempt_one_click_unsubscribe, hr, hlt]
    · simp only [attempt_one_click_unsubscribe, hr, if_neg hlt]
      exact containsSub_append "Server returned " (toString r.status_code)
  · intro r hr hlt hs
    simp [attempt_one_click_unsubscribe, hr, hlt, hs]
  · intro r hr hlt hs
    simp [attempt_one_click_unsubscribe, hr, hlt, hs]
  · intro e he
    simp [attempt_one_click_unsubscribe, he]
  · intro r hr h200 htext
    have hlt : r.status_code < 400 := by omega
    have hs : success_search r.text = false := by rw [htext]; decide
    simp [attempt_one_click_unsubscribe, hr, hlt, hs]

/-- Witness for C3: a network that answers the one-click POST with a 200
response and body OK produces a likely_success outcome. -/
theorem C3_one_click_outcomes_witness :
    (attempt_one_click_unsubscribe
      (fun _ => HttpResult.ok ⟨200, "OK", "https://ex.com/u/123"⟩)
      "https://ex.com/u/123").1.status = OutcomeStatus.likely_success :=
  (C3_one_click_outcomes
      (fun _ => HttpResult.ok ⟨200, "OK", "https://ex.com/u/123"⟩)
      "https://ex.com/u/123").2.2.2.2 ⟨200, "OK", "https://ex.com/u/123"⟩ rfl rfl rfl

/-- C5: for every non-dry-run invocation, the returned succeeded boolean is
true exactly when the final Outcome status is success or likely_success; in
particular the no-mechanism branch and the no-matching-email case return
false. -/
theorem C5_succeeded_iff (net : Net) (fetched : Option Email) :
    ((run net false fetched).succeeded = true ↔
      ∃ oc, (run net false fetched).outcome = some oc ∧
        (oc.status = OutcomeStatus.success ∨ oc.status = OutcomeStatus.likely_success)) ∧
    ((run net false fetched).strategy = some Strategy.no_mechanism →
      (run net false fetched).succeeded = false) ∧
    (fetched = none → (run net false fetched).succeeded = false) := by
  cases fetched with
  | none => simp [run]
  | some email =>
    cases hu : (parse_list_unsubscribe_header email.header_list_unsubscribe).1 with
    | cons u us =>
      cases hm : marker_in_post email.header_list_unsubscribe_post with
      | true => simp [run, hu, hm, outcome_ok]
      | false => simp [run, hu, hm, outcome_ok]
    | nil =>
      cases hb : pick_best_link (find_unsub_links_in_html email) with
      | some best => simp [run, hu, hb, outcome_ok]
      | none => simp [run, hu, hb]

/-- Witness for C5: with no matching email the resolver returns false, and
the success-iff characterization holds there. -/
theorem C5_succeeded_iff_witness :
    (run (fun _ => HttpResult.exc "down") false none).succeeded = false :=
  (C5_succeeded_iff (fun _ => HttpResult.exc "down") none).2.2 rfl

/-- C10: with dry_run enabled, selecting any of the three actionable
strategies returns true while issuing no executor request and producing no
Outcome; with no email or no mechanism the dry-run returns false and issues
no request. -/
theorem C10_dry_run (net : Net) (fetched : Option Email) :
    ((run net true fetched).strategy = some Strategy.one_click ∨
     (run net true fetched).strategy = some Strategy.header_url ∨
     (run net true fetched).strategy = some Strategy.html_link →
       (run net true fetched).succeeded = true ∧
       (run net true fetched).requests = [] ∧
       (run net true fetched).outcome = none) ∧
    ((run net true fetched).strategy = some Strategy.no_mechanism ∨
     (run net true fetched).strategy = none →
       (run net true fetched).succeeded = false ∧
       (run net true fetched).requests = []) := by
  cases fetched with
  | none => simp [run]
  | some email =>
    cases hu : (parse_list_unsubscribe_header email.header_list_unsubscribe).1 with
    | cons u us =>
      cases hm : marker_in_post email.header_list_unsubscribe_post with
      | true => simp [run, hu, hm]
      | false => simp [run, hu, hm]
    | nil =>
      cases hb : pick_best_link (find_unsub_links_in_html email) with
      | some best => simp [run, hu, hb]
      | none => simp [run, hu, hb]

/-- A network that refuses every request, for concrete instantiations. -/
def netDown : Net := fun _ => HttpResult.exc "connection refused"

/-- A concrete email record carrying a one-click capable unsubscribe
header. -/
def exEmail : Email :=
  ⟨some "<https://ex.com/u/123>", some "List-Unsubscribe=One-Click", [], []⟩

/-- Witness for C10: in dry-run mode on a one-click capable email, the
resolver reports success with no executor request and no Outcome. -/
theorem C10_dry_run_witness :
    (run netDown true (some exEmail)).succeeded = true ∧
    (run netDown true (some exEmail)).requests = [] ∧
    (run netDown true (some exEmail)).outcome = none :=
  (C10_dry_run netDown (some exEmail)).1 (Or.inl (by decide))

/-- C1: a non-dry-run resolution executes exactly one strategy in fixed
priority order: one_click when the header yields an http(s) URI and the
post-capability header contains the one-click marker (POST on the first
http(s) URI); else header_url when an http(s) header URI exists (GET on the
first); else html_link when the link extractor yields a candidate (GET on
the first candidate whose text contains unsubscribe case-insensitively, else
the first candidate); else none with no executor request.  The request
trace equals the trace of the single executed strategy, so no lower-priority
strategy runs after the chosen one yields its Outcome. -/
theorem C1_strategy_chain (net : Net) (email : Email) :
    (∀ u us, (parse_list_unsubscribe_header email.header_list_unsubscribe).1 = u :: us →
       marker_in_post email.header_list_unsubscribe_post = true →
       (run net false (some email)).strategy = some Strategy.one_click ∧
       (run net false (some email)).outcome = some (attempt_one_click_unsubscribe net u).1 ∧
       (run net false (some email)).requests = (attempt_one_click_unsubscribe net u).2) ∧
    (∀ u us, (parse_list_unsubscribe_header email.header_list_unsubscribe).1 = u :: us →
       marker_in_post email.header_list_unsubscribe_post = false →
       (run net false (some email)).strategy = some Strategy.header_url ∧
       (run net false (some email)).outcome = some (attempt_get_unsubscribe net u).1 ∧
       (run net false (some email)).requests = (attempt_get_unsubscribe net u).2) ∧
    (∀ b bs, (parse_list_unsubscribe_header email.header_list_unsubscribe).1 = [] →
       find_unsub_links_in_html email = b :: bs →
       ∃ best,
         best = (match (b :: bs).find?
                   (fun p => containsSub "unsubscribe" (pyLower p.2)) with
                 | some p => p
                 | none => b) ∧
         (run net false (some email)).strategy = some Strategy.html_link ∧
         (run net false (some email)).outcome = some (attempt_get_unsubscribe net best.1).1 ∧
         (run net false (some email)).requests = (attempt_get_unsubscribe net best.1).2) ∧
    ((parse_list_unsubscribe_header email.header_list_unsubscribe).1 = [] →
       find_unsub_links_in_html email = [] →
       (run net false (some email)).strategy = some Strategy.no_mechanism ∧
       (run net false (some email)).requests = []) := by
  refine ⟨?_, ?_, ?_, ?_⟩
  · intro u us hu hm
    simp [run, hu, hm]
  · intro u us hu hm
    simp [run, hu, hm]
  · intro b bs hu hl
    have hp : pick_best_link (find_unsub_links_in_html email) =
        some (match (b :: bs).find? (fun p => containsSub "unsubscribe" (pyLower p.2)) with
              | some p => p
              | none => b) := by
      rw [hl]
      unfold pick_best_link
      cases hf : (b :: bs).find? (fun p => containsSub "unsubscribe" (pyLower p.2)) with
      | some p => simp [hf]
      | none => simp [hf]
    refine ⟨_, rfl, ?_⟩
    simp [run, hu, hp]
  · intro hu hl
    have hp : pick_best_link (find_unsub_links_in_html email) = none := by
      rw [hl]; rfl
    simp [run, hu, hp]

/-- Witness for C1: on the one-click capable email with a failing network,
the one_click strategy is selected and its single POST is the whole request
trace. -/
theorem C1_strategy_chain_witness :
    (run netDown false (some exEmail)).strategy = some Strategy.one_click ∧
    (run netDown false (some exEmail)).outcome =
      some (attempt_one_click_unsubscribe netDown "https://ex.com/u/123").1 ∧
    (run netDown false (some exEmail)).requests =
      (attempt_one_click_unsubscribe netDown "https://ex.com/u/123").2 :=
  (C1_strategy_chain netDown exEmail).1 "https://ex.com/u/123" [] (by decide) (by decide)

/-- C4: for a GET-and-resolve whose response is below 400 and matches no
success vocabulary, the candidate forms are exactly the extracted forms
whose text plus concatenated input values match the intent vocabulary or
contain the substring confirm, with a single-form page promoted to candidate
when nothing matched; the first candidate is submitted, and with no
candidate the outcome is manual with the fixed message. -/
theorem C4_candidate_forms (net : Net) (url : String) :
    ∀ r, net (HttpRequest.getForm url []) = HttpResult.ok r →
      r.status_code < 400 → success_search r.text = false →
      (select_unsub_forms (FormFinder_forms r.text) =
        (if (FormFinder_forms r.text).filter form_is_unsub = [] ∧
            (FormFinder_forms r.text).length = 1
         then FormFinder_forms r.text
         else (FormFinder_forms r.text).filter form_is_unsub)) ∧
      (select_unsub_forms (FormFinder_forms r.text) = [] →
        attempt_get_unsubscribe net url =
          (⟨OutcomeStatus.manual,
            "Page loaded but no confirmation detected; may need a browser"⟩,
           [HttpRequest.getForm url []])) ∧
      (∀ f fs, select_unsub_forms (FormFinder_forms r.text) = f :: fs →
        (attempt_get_unsubscribe net url).2 =
          [HttpRequest.getForm url [], form_request url r.url f]) := by
  intro r hr hlt hs
  have hge : ¬ 400 ≤ r.status_code := by omega
  refine ⟨?_, ?_, ?_⟩
  · unfold select_unsub_forms
    by_cases h1 : (FormFinder_forms r.text).filter form_is_unsub = []
    · by_cases h2 : (FormFinder_forms r.text).length = 1
      · simp [h1, h2]
      · simp [h1, h2]
    · simp [h1, List.isEmpty_iff]
  · intro hsel
    simp [attempt_get_unsubscribe, hr, hge, hs, hsel]
  · intro f fs hsel
    simp only [attempt_get_unsubscribe, hr, if_neg hge, hs, Bool.false_eq_true,
      if_false, hsel]
    cases hnet2 : net (form_request url r.url f) with
    | exc e => simp
    | ok r2 =>
      by_cases h4 : r2.status_code < 400
      · cases hs2 : success_search r2.text with
        | true => simp [h4, hs2]
        | false => simp [h4, hs2]
      · simp [h4]

/-- The confirmation page served in the concrete GET-and-resolve scenario:
a single POST form with one named input. -/
def pageHtml : String :=
  "<form action=\"/confirm2\" method=\"POST\"><input name=\"token\" value=\"abc\"></form>"

/-- A network serving pageHtml for the unsubscribe URL and a confirmation
body for everything else. -/
def netForm : Net := fun req =>
  if req = HttpRequest.getForm "https://list.example/out" [] then
    HttpResult.ok ⟨200, pageHtml, "https://list.example/out"⟩
  else HttpResult.ok ⟨200, "you.ve been removed", "https://list.example/confirm2"⟩

/-- Witness for C4: the single form of pageHtml is selected and submitted as
the second request of the trace. -/
theorem C4_candidate_forms_witness :
    (attempt_get_unsubscribe netForm "https://list.example/out").2 =
      [HttpRequest.getForm "https://list.example/out" [],
       form_request "https://list.example/out" "https://list.example/out"
         ⟨"/confirm2", "POST", [("token", "abc")], ""⟩] :=
  (C4_candidate_forms netForm "https://list.example/out"
      ⟨200, pageHtml, "https://list.example/out"⟩ (by decide) (by decide) (by decide)).2.2
    ⟨"/confirm2", "POST", [("token", "abc")], ""⟩ [] (by decide)

/-- The page of the C2 scenario: one form with no action attribute. -/
def c2Html : String := "<form><input name=\"x\" value=\"y\"></form>"

/-- A network whose initial GET redirects: the fetched page reports a final
URL different from the requested one. -/
def c2Net : Net := fun req =>
  if req = HttpRequest.getForm "https://orig.example/u" [] then
    HttpResult.ok ⟨200, c2Html, "https://final.example/page"⟩
  else HttpResult.ok ⟨200, "", "https://final.example/page"⟩

/-- Counterexample for C2: the selected form has an empty action, and the
submission goes to the original request URL even though the final URL of the
fetched page differs, so the submission URL is not the action resolved
against the final URL. -/
theorem C2_counterexample_original_url :
    (FormFinder_forms c2Html).map (fun f => f.action) = [""] ∧
    (attempt_get_unsubscribe c2Net "https://orig.example/u").2 =
      [HttpRequest.getForm "https://orig.example/u" [],
       HttpRequest.getForm "https://orig.example/u" [("x", "y")]] ∧
    urljoin "https://final.example/page" "" = "https://final.example/page" ∧
    ("https://orig.example/u" : String) ≠ "https://final.example/page" := by
  refine ⟨by decide, by decide, by decide, by decide⟩

/-- C2 as amended: for every form selected during GET-and-resolve, an action
other than empty or hash is resolved against the final (post-redirect) URL
of the fetched page; an empty or hash action resubmits to the original
request URL. -/
theorem C2_amended_action_resolution (net : Net) (url : String) :
    ∀ r, net (HttpRequest.getForm url []) = HttpResult.ok r →
      r.status_code < 400 → success_search r.text = false →
      ∀ f fs, select_unsub_forms (FormFinder_forms r.text) = f :: fs →
        (attempt_get_unsubscribe net url).2 =
          [HttpRequest.getForm url [], form_request url r.url f] ∧
        (f.action ≠ "" → f.action ≠ "#" →
          reqUrl (form_request url r.url f) = urljoin r.url f.action) ∧
        (f.action = "" ∨ f.action = "#" →
          reqUrl (form_request url r.url f) = url) := by
  intro r hr hlt hs f fs hsel
  have hge : ¬ 400 ≤ r.status_code := by omega
  refine ⟨?_, ?_, ?_⟩
  · simp only [attempt_get_unsubscribe, hr, if_neg hge, hs, Bool.false_eq_true,
      if_false, hsel]
    cases hnet2 : net (form_request url r.url f) with
    | exc e => simp
    | ok r2 =>
      by_cases h4 : r2.status_code < 400
      · cases hs2 : success_search r2.text with
        | true => simp [h4, hs2]
        | false => simp [h4, hs2]
      · simp [h4]
  · intro h1 h2
    unfold form_request form_action_url
    have hcond : (f.action = "" || f.action = "#") = false := by
      simp [h1, h2]
    rw [hcond]
    by_cases hm : f.method = "POST"
    · simp [hm, reqUrl]
    · simp [hm, reqUrl]
  · intro h12
    unfold form_request form_action_url
    have hcond : (f.action = "" || f.action = "#") = true := by
      rcases h12 with h | h <;> simp [h]
    rw [hcond]
    by_cases hm : f.method = "POST"
    · simp [hm, reqUrl]
    · simp [hm, reqUrl]

/-- Witness for the amended C2: on the redirecting network, the empty-action
form resubmits to the original request URL. -/
theorem C2_amended_action_resolution_witness :
    reqUrl (form_request "https://orig.example/u" "https://final.example/page"
        ⟨"", "GET", [("x", "y")], ""⟩) = "https://orig.example/u" :=
  ((C2_amended_action_resolution c2Net "https://orig.example/u"
      ⟨200, c2Html, "https://final.example/page"⟩ (by decide) (by decide) (by decide)
      ⟨"", "GET", [("x", "y")], ""⟩ [] (by decide)).2.2) (Or.inl rfl)

/-- The emission condition of the claim about the link extractor: the
current anchor has a nonempty absolute http(s) href and the intent
vocabulary matches the accumulated (trimmed) text or the href. -/
def link_emit_cond (st : LinkState) : Prop :=
  ∃ h, st.current_href = some h ∧ h ≠ "" ∧
    (startsWithL "http://" h = true ∨ startsWithL "https://" h = true) ∧
    (unsub_search (pyStrip (joinSpace st.current_text)) = true ∨ unsub_search h = true)

theorem link_step_start (st : LinkState) (tag : String) (attrs : List (String × String)) :
    link_step st (HtmlEvent.startTag tag attrs) =
      if tag = "a" then
        { st with in_a := true, current_text := [], current_href := attrGet attrs "href" }
      else st := rfl

theorem link_step_data (st : LinkState) (s : String) :
    link_step st (HtmlEvent.data s) =
      if st.in_a then { st with current_text := st.current_text ++ [s] } else st := rfl

theorem link_step_end (st : LinkState) (tag : String) :
    link_step st (HtmlEvent.endTag tag) =
      if tag = "a" && st.in_a then
        ⟨st.links ++
          (match st.current_href with
           | none => []
           | some href =>
             if href = "" then []
             else if startsWithL "http://" href || startsWithL "https://" href then
               if unsub_search (pyStrip (joinSpace st.current_text)) || unsub_search href then
                 [(href, pyStrip (joinSpace st.current_text))]
               else []
             else []),
         none, [], false⟩
      else st := rfl

theorem link_step_inv (st : LinkState) (ev : HtmlEvent)
    (h : st.in_a = false → st.current_href = none) :
    (link_step st ev).in_a = false → (link_step st ev).current_href = none := by
  cases ev with
  | startTag tag attrs =>
    rw [link_step_start]
    by_cases ht : tag = "a"
    · rw [if_pos ht]; intro hfa; exact absurd hfa (by simp)
    · rw [if_neg ht]; exact h
  | data s =>
    rw [link_step_data]
    by_cases hin : st.in_a = true
    · rw [if_pos hin]; exact h
    · rw [if_neg hin]; exact h
  | endTag tag =>
    rw [link_step_end]
    by_cases hc : (decide (tag = "a") && st.in_a) = true
    · rw [if_pos hc]; intro _; rfl
    · rw [if_neg hc]; exact h

theorem foldl_link_inv (evs : List HtmlEvent) :
    ∀ st : LinkState, (st.in_a = false → st.current_href = none) →
      ((evs.foldl link_step st).in_a = false →
       (evs.foldl link_step st).current_href = none) := by
  induction evs with
  | nil => exact fun st h => h
  | cons e evs ih => exact fun st h => ih (link_step st e) (link_step_inv st e h)

theorem self_ne_append_singleton {α : Type} (l : List α) (x : α) : l ++ [x] ≠ l := by
  intro h
  have := congrArg List.length h
  simp at this

theorem bor_iff (a b : Bool) : (a || b) = true ↔ a = true ∨ b = true := by
  cases a <;> cases b <;> simp

theorem link_step_links_sup (st : LinkState) (ev : HtmlEvent)
    (h : ∀ p ∈ st.links, p.1 ≠ "" ∧
      (startsWithL "http://" p.1 = true ∨ startsWithL "https://" p.1 = true)) :
    ∀ p ∈ (link_step st ev).links, p.1 ≠ "" ∧
      (startsWithL "http://" p.1 = true ∨ startsWithL "https://" p.1 = true) := by
  cases ev with
  | startTag tag attrs =>
    rw [link_step_start]
    by_cases ht : tag = "a"
    · rw [if_pos ht]; exact h
    · rw [if_neg ht]; exact h
  | data s =>
    rw [link_step_data]
    by_cases hin : st.in_a = true
    · rw [if_pos hin]; exact h
    · rw [if_neg hin]; exact h
  | endTag tag =>
    rw [link_step_end]
    by_cases hc : (decide (tag = "a") && st.in_a) = true
    · rw [if_pos hc]
      intro p hp
      rcases List.mem_append.mp hp with h1 | h1
      · exact h p h1
      · cases hh : st.current_href with
        | none => simp only [hh] at h1; simp at h1
        | some href =>
          simp only [hh] at h1
          by_cases he : href = ""
          · rw [if_pos he] at h1; simp at h1
          · rw [if_neg he] at h1
            by_cases hsch : (startsWithL "http://" href || startsWithL "https://" href) = true
            · rw [if_pos hsch] at h1
              by_cases hv : (unsub_search (pyStrip (joinSpace st.current_text)) ||
                  unsub_search href) = true
              · rw [if_pos hv] at h1
                simp at h1
                rw [h1]
                exact ⟨he, (bor_iff _ _).mp hsch⟩
              · rw [if_neg hv] at h1; simp at h1
            · rw [if_neg hsch] at h1; simp at h1
    · rw [if_neg hc]; exact h

theorem link_emit_step (st : LinkState)
    (hinv : st.in_a = false → st.current_href = none) :
    ((link_step st (HtmlEvent.endTag "a")).links ≠ st.links ↔ link_emit_cond st) ∧
    (∀ h, st.current_href = some h → link_emit_cond st →
      (link_step st (HtmlEvent.endTag "a")).links =
        st.links ++ [(h, pyStrip (joinSpace st.current_text))]) := by
  cases hin : st.in_a with
  | false =>
    have hnone := hinv hin
    have hstep : link_step st (HtmlEvent.endTag "a") = st := by
      rw [link_step_end]
      have hc : (decide (("a" : String) = "a") && st.in_a) = false := by rw [hin]; simp
      rw [hc]; simp
    constructor
    · rw [hstep]
      constructor
      · intro hne; exact absurd rfl hne
      · rintro ⟨h2, hh2, -, -, -⟩
        rw [hnone] at hh2
        exact Option.noConfusion hh2
    · intro h hh
      rw [hnone] at hh
      exact Option.noConfusion hh
  | true =>
    have hc : (decide (("a" : String) = "a") && st.in_a) = true := by rw [hin]; simp
    cases hh : st.current_href with
    | none =>
      have hstep : link_step st (HtmlEvent.endTag "a") =
          ⟨st.links ++ [], none, [], false⟩ := by
        rw [link_step_end, if_pos hc, hh]
      constructor
      · rw [hstep]
        constructor
        · intro hne; exact absurd (List.append_nil st.links) hne
        · rintro ⟨h2, hh2, -, -, -⟩
          rw [hh] at hh2
          exact Option.noConfusion hh2
      · intro h hh2
        exact Option.noConfusion hh2
    | some href =>
      have hstep : link_step st (HtmlEvent.endTag "a") =
          ⟨st.links ++
            (if href = "" then []
             else if startsWithL "http://" href || startsWithL "https://" href then
               if unsub_search (pyStrip (joinSpace st.current_text)) || unsub_search href then
                 [(href, pyStrip (joinSpace st.current_text))]
               else []
             else []),
           none, [], false⟩ := by
        rw [link_step_end, if_pos hc, hh]
      by_cases he : href = ""
      · rw [if_pos he] at hstep
        constructor
        · rw [hstep]
          constructor
          · intro hne; exact absurd (List.append_nil st.links) hne
          · rintro ⟨h2, hh2, hne2, -, -⟩
            rw [hh] at hh2
            injection hh2 with h3
            rw [← h3] at hne2
            exact absurd he hne2
        · rintro h hh2 ⟨h2, hh3, hne2, -, -⟩
          rw [hh] at hh3
          injection hh3 with h3
          rw [← h3] at hne2
          exact absurd he hne2
      · rw [if_neg he] at hstep
        by_cases hsch : (startsWithL "http://" href || startsWithL "https://" href) = true
        · rw [if_pos hsch] at hstep
          by_cases hv : (unsub_search (pyStrip (joinSpace st.current_text)) ||
              unsub_search href) = true
          · rw [if_pos hv] at hstep
            constructor
            · constructor
              · intro _
                exact ⟨href, hh, he, (bor_iff _ _).mp hsch, (bor_iff _ _).mp hv⟩
              · intro _
                rw [hstep]
                exact self_ne_append_singleton st.links _
            · intro h hh2 _
              injection hh2 with h3
              rw [hstep, h3]
          · rw [if_neg hv] at hstep
            have hvno : ∀ hq : String, st.current_href = some hq →
                ¬ (unsub_search (pyStrip (joinSpace st.current_text)) = true ∨
                   unsub_search hq = true) := by
              intro hq hhq hor
              rw [hh] at hhq
              injection hhq with h3
              rw [← h3] at hor
              exact hv ((bor_iff _ _).mpr hor)
            constructor
            · rw [hstep]
              constructor
              · intro hne; exact absurd (List.append_nil st.links) hne
              · rintro ⟨h2, hh2, -, -, hv2⟩
                exact absurd hv2 (hvno h2 hh2)
            · rintro h hh2 ⟨h2, hh3, -, -, hv2⟩
              exact absurd hv2 (hvno h2 hh3)
        · rw [if_neg hsch] at hstep
          have hsno : ∀ hq : String, st.current_href = some hq →
              ¬ (startsWithL "http://" hq = true ∨ startsWithL "https://" hq = true) := by
            intro hq hhq hor
            rw [hh] at hhq
            injection hhq with h3
            rw [← h3] at hor
            exact hsch ((bor_iff _ _).mpr hor)
          constructor
          · rw [hstep]
            constructor
            · intro hne; exact absurd (List.append_nil st.links) hne
            · rintro ⟨h2, hh2, -, hsch2, -⟩
              exact absurd hsch2 (hsno h2 hh2)
          · rintro h hh2 ⟨h2, hh3, -, hsch2, -⟩
            exact absurd hsch2 (hsno h2 hh3)

/-- C6: at a closing anchor tag, the link extractor emits a candidate
exactly when the intent vocabulary matches the accumulated text or the href
and the href is a nonempty absolute http(s) URL; the emitted pair is the
href with the trimmed accumulated text; consequently every emitted candidate
has a nonempty absolute http(s) href.  The two concrete anchors behave as
the claim states. -/
theorem C6_link_extractor :
    (∀ evs : List HtmlEvent,
      (((link_step (evs.foldl link_step initLinkState) (HtmlEvent.endTag "a")).links ≠
          (evs.foldl link_step initLinkState).links) ↔
        link_emit_cond (evs.foldl link_step initLinkState)) ∧
      (∀ h, (evs.foldl link_step initLinkState).current_href = some h →
        link_emit_cond (evs.foldl link_step initLinkState) →
        (link_step (evs.foldl link_step initLinkState) (HtmlEvent.endTag "a")).links =
          (evs.foldl link_step initLinkState).links ++
            [(h, pyStrip (joinSpace (evs.foldl link_step initLinkState).current_text))])) ∧
    (∀ evs : List HtmlEvent, ∀ p ∈ (evs.foldl link_step initLinkState).links,
      p.1 ≠ "" ∧ (startsWithL "http://" p.1 = true ∨ startsWithL "https://" p.1 = true)) ∧
    UnsubLinkFinder_links "<a href=\"https://x/y\">Click to unsubscribe</a>" =
      [("https://x/y", "Click to unsubscribe")] ∧
    UnsubLinkFinder_links "<a href=\"https://x/y\">Read more</a>" = [] := by
  refine ⟨?_, ?_, by decide, by decide⟩
  · intro evs
    exact link_emit_step _ (foldl_link_inv evs initLinkState (fun _ => rfl))
  · intro evs
    induction evs using List.reverseRecOn with
    | nil => intro p hp; simp [initLinkState] at hp
    | append_singleton evs e ih =>
      rw [List.foldl_append]
      exact link_step_links_sup _ e ih

/-- Witness for C6: feeding the anchor start tag and its text, the closing
tag appends exactly the candidate pair. -/
theorem C6_link_extractor_witness :
    (link_step ([HtmlEvent.startTag "a" [("href", "https://x/y")],
        HtmlEvent.data "Click to unsubscribe"].foldl link_step initLinkState)
        (HtmlEvent.endTag "a")).links =
      ([HtmlEvent.startTag "a" [("href", "https://x/y")],
        HtmlEvent.data "Click to unsubscribe"].foldl link_step initLinkState).links ++
        [("https://x/y", pyStrip (joinSpace ([HtmlEvent.startTag "a" [("href", "https://x/y")],
          HtmlEvent.data "Click to unsubscribe"].foldl link_step initLinkState).current_text))] :=
  (C6_link_extractor.1 [HtmlEvent.startTag "a" [("href", "https://x/y")],
      HtmlEvent.data "Click to unsubscribe"]).2 "https://x/y" (by decide)
    ⟨"https://x/y", by decide, by decide, Or.inr (by decide), Or.inl (by decide)⟩

theorem form_step_start (st : FormState) (tag : String) (attrs : List (String × String)) :
    form_step st (HtmlEvent.startTag tag attrs) =
      if tag = "form" then
        { st with
          current_form := some (OpenForm.mk (attrGetD attrs "action" "")
                                  (pyUpper (attrGetD attrs "method" "GET")) []),
          current_text := [] }
      else if tag = "input" then
        (match st.current_form with
         | some f =>
           (match attrGet attrs "name" with
            | some name =>
              if name = "" then st
              else { st with current_form := some (OpenForm.mk f.action f.method (dictInsert f.inputs name (attrGetD attrs "value" ""))) }
            | none => st)
         | none => st)
      else st := rfl

theorem form_step_data_eq (st : FormState) (s : String) :
    form_step st (HtmlEvent.data s) =
      (match st.current_form with
       | some _ => { st with current_text := st.current_text ++ [s] }
       | none => st) := rfl

theorem form_step_end_eq (st : FormState) (tag : String) :
    form_step st (HtmlEvent.endTag tag) =
      (match st.current_form with
       | some f =>
         if tag = "form" then
           ⟨st.forms ++ [⟨f.action, f.method, f.inputs, pyStrip (joinSpace st.current_text)⟩],
            none, []⟩
         else st
       | none => st) := rfl

theorem lookup_overwrite (k v : String) :
    ∀ d : List (String × String), d.any (fun p => p.1 = k) = true →
      dictLookup (d.map (fun p => if p.1 = k then (k, v) else p)) k = some v := by
  intro d
  induction d with
  | nil => intro h; simp at h
  | cons q d ih =>
    intro h
    by_cases hq : q.1 = k
    · rw [List.map_cons, if_pos hq]
      unfold dictLookup
      rw [List.find?_cons_of_pos _ (by simp)]
    · rw [List.map_cons, if_neg hq]
      have hd : d.any (fun p => p.1 = k) = true := by
        rcases List.any_eq_true.mp h with ⟨x, hx, hpx⟩
        rcases List.mem_cons.mp hx with h1 | h1
        · rw [h1] at hpx; exact absurd (of_decide_eq_true hpx) hq
        · exact List.any_eq_true.mpr ⟨x, h1, hpx⟩
      unfold dictLookup at ih ⊢
      rw [List.find?_cons_of_neg _ (by simpa using hq)]
      exact ih hd

theorem lookup_append_new (k v : String) :
    ∀ d : List (String × String), d.any (fun p => p.1 = k) = false →
      dictLookup (d ++ [(k, v)]) k = some v := by
  intro d
  induction d with
  | nil =>
    intro _
    unfold dictLookup
    rw [List.nil_append, List.find?_cons_of_pos _ (by simp)]
  | cons q d ih =>
    intro h
    have hq : ¬ q.1 = k := by
      intro hq
      have hqq : (q :: d).any (fun p => p.1 = k) = true :=
        List.any_eq_true.mpr ⟨q, List.mem_cons_self q d, by simpa using hq⟩
      rw [hqq] at h
      exact Bool.noConfusion h
    have hd : d.any (fun p => p.1 = k) = false := by
      cases hda : d.any (fun p => p.1 = k) with
      | false => rfl
      | true =>
        rcases List.any_eq_true.mp hda with ⟨x, hx, hpx⟩
        have hqq : (q :: d).any (fun p => p.1 = k) = true :=
          List.any_eq_true.mpr ⟨x, List.mem_cons_of_mem q hx, hpx⟩
        rw [hqq] at h
        exact Bool.noConfusion h
    rw [List.cons_append]
    unfold dictLookup at ih ⊢
    rw [List.find?_cons_of_neg _ (by simpa using hq)]
    exact ih hd

theorem dictInsert_lookup_self (d : List (String × String)) (k v : String) :
    dictLookup (dictInsert d k v) k = some v := by
  unfold dictInsert
  by_cases h : d.any (fun p => p.1 = k) = true
  · rw [if_pos h]
    exact lookup_overwrite k v d h
  · have h' : d.any (fun p => p.1 = k) = false := by
      cases hh : d.any (fun p => p.1 = k) with
      | false => rfl
      | true => exact absurd hh h
    rw [if_neg h]
    exact lookup_append_new k v d h'

theorem dictInsert_lookup_other (d : List (String × String)) (k v k' : String)
    (hne : k' ≠ k) : dictLookup (dictInsert d k v) k' = dictLookup d k' := by
  unfold dictInsert
  by_cases h : d.any (fun p => p.1 = k) = true
  · rw [if_pos h]
    clear h
    induction d with
    | nil => rfl
    | cons q d ih =>
      rw [List.map_cons]
      by_cases hq : q.1 = k
      · rw [if_pos hq]
        unfold dictLookup at ih ⊢
        rw [List.find?_cons_of_neg _ (by simp; exact fun hk => hne hk.symm),
            List.find?_cons_of_neg _ (by simp; intro hk; rw [hq] at hk; exact hne hk.symm)]
        exact ih
      · rw [if_neg hq]
        unfold dictLookup at ih ⊢
        by_cases hq' : q.1 = k'
        · rw [List.find?_cons_of_pos _ (by simpa using hq'),
              List.find?_cons_of_pos _ (by simpa using hq')]
        · rw [List.find?_cons_of_neg _ (by simpa using hq'),
              List.find?_cons_of_neg _ (by simpa using hq')]
          exact ih
  · rw [if_neg h]
    clear h
    induction d with
    | nil =>
      unfold dictLookup
      rw [List.nil_append, List.find?_cons_of_neg _ (by simp; exact fun hk => hne hk.symm)]
    | cons q d ih =>
      rw [List.cons_append]
      unfold dictLookup at ih ⊢
      by_cases hq' : q.1 = k'
      · rw [List.find?_cons_of_pos _ (by simpa using hq'),
            List.find?_cons_of_pos _ (by simpa using hq')]
      · rw [List.find?_cons_of_neg _ (by simpa using hq'),
            List.find?_cons_of_neg _ (by simpa using hq')]
        exact ih

theorem dictInsert_mem (d : List (String × String)) (k v : String) :
    ∀ p ∈ dictInsert d k v, p.1 = k ∨ ∃ q ∈ d, p.1 = q.1 := by
  intro p hp
  unfold dictInsert at hp
  by_cases h : d.any (fun p => p.1 = k) = true
  · rw [if_pos h] at hp
    rcases List.mem_map.mp hp with ⟨q, hq, heq⟩
    by_cases hqk : q.1 = k
    · left; rw [← heq, if_pos hqk]
    · right; refine ⟨q, hq, ?_⟩; rw [← heq, if_neg hqk]
  · rw [if_neg h] at hp
    rcases List.mem_append.mp hp with h1 | h1
    · right; exact ⟨p, h1, rfl⟩
    · left
      have hpk : p = (k, v) := by simpa using h1
      rw [hpk]

theorem form_step_keys (st : FormState) (ev : HtmlEvent)
    (h1 : ∀ f ∈ st.forms, ∀ p ∈ f.inputs, p.1 ≠ "")
    (h2 : ∀ g, st.current_form = some g → ∀ p ∈ g.inputs, p.1 ≠ "") :
    (∀ f ∈ (form_step st ev).forms, ∀ p ∈ f.inputs, p.1 ≠ "") ∧
    (∀ g, (form_step st ev).current_form = some g → ∀ p ∈ g.inputs, p.1 ≠ "") := by
  cases ev with
  | startTag tag attrs =>
    by_cases hf : tag = "form"
    · have hstep : form_step st (HtmlEvent.startTag tag attrs) =
          { st with
            current_form := some (OpenForm.mk (attrGetD attrs "action" "")
                                    (pyUpper (attrGetD attrs "method" "GET")) []),
            current_text := [] } := by
        rw [form_step_start, if_pos hf]
      rw [hstep]
      refine ⟨h1, ?_⟩
      intro g hg
      injection hg with h3
      rw [← h3]
      intro p hp
      simp at hp
    · by_cases hi : tag = "input"
      · cases hcf : st.current_form with
        | none =>
          have hstep : form_step st (HtmlEvent.startTag tag attrs) = st := by
            rw [form_step_start, if_neg hf, if_pos hi, hcf]
          rw [hstep]
          exact ⟨h1, h2⟩
        | some f =>
          cases hn : attrGet attrs "name" with
          | none =>
            have hstep : form_step st (HtmlEvent.startTag tag attrs) = st := by
              rw [form_step_start, if_neg hf, if_pos hi, hcf, hn]
            rw [hstep]
            exact ⟨h1, h2⟩
          | some name =>
            by_cases hne : name = ""
            · have hstep : form_step st (HtmlEvent.startTag tag attrs) = st := by
                rw [form_step_start, if_neg hf, if_pos hi, hcf, hn]
                exact if_pos hne
              rw [hstep]
              exact ⟨h1, h2⟩
            · have hstep : form_step st (HtmlEvent.startTag tag attrs) =
                  { st with current_form := some (OpenForm.mk f.action f.method (dictInsert f.inputs name (attrGetD attrs "value" ""))) } := by
                rw [form_step_start, if_neg hf, if_pos hi, hcf, hn]
                exact if_neg hne
              rw [hstep]
              refine ⟨h1, ?_⟩
              intro g hg
              injection hg with h3
              rw [← h3]
              intro p hp
              rcases dictInsert_mem f.inputs name (attrGetD attrs "value" "") p hp with
                hk | ⟨q, hq, hq2⟩
              · rw [hk]; exact hne
              · rw [hq2]; exact h2 f hcf q hq
      · have hstep : form_step st (HtmlEvent.startTag tag attrs) = st := by
          rw [form_step_start, if_neg hf, if_neg hi]
        rw [hstep]
        exact ⟨h1, h2⟩
  | data s =>
    cases hcf : st.current_form with
    | none =>
      have hstep : form_step st (HtmlEvent.data s) = st := by
        rw [form_step_data_eq, hcf]
      rw [hstep]
      exact ⟨h1, h2⟩
    | some f =>
      have hstep : form_step st (HtmlEvent.data s) =
          { st with current_text := st.current_text ++ [s] } := by
        rw [form_step_data_eq, hcf]
      rw [hstep]
      refine ⟨h1, ?_⟩
      intro g hg
      have hg2 : st.current_form = some g := hg
      exact h2 g hg2
  | endTag tag =>
    cases hcf : st.current_form with
    | none =>
      have hstep : form_step st (HtmlEvent.endTag tag) = st := by
        rw [form_step_end_eq, hcf]
      rw [hstep]
      exact ⟨h1, h2⟩
    | some f =>
      by_cases hf : tag = "form"
      · have hstep : form_step st (HtmlEvent.endTag tag) =
            ⟨st.forms ++ [⟨f.action, f.method, f.inputs,
               pyStrip (joinSpace st.current_text)⟩], none, []⟩ := by
          rw [form_step_end_eq, hcf]
          exact if_pos hf
        rw [hstep]
        constructor
        · intro f2 hf2
          rcases List.mem_append.mp hf2 with hm | hm
          · exact h1 f2 hm
          · have hf3 : f2 = ⟨f.action, f.method, f.inputs,
                pyStrip (joinSpace st.current_text)⟩ := by simpa using hm
            rw [hf3]
            exact h2 f hcf
        · intro g hg
          exact absurd hg (by simp)
      · have hstep : form_step st (HtmlEvent.endTag tag) = st := by
          rw [form_step_end_eq, hcf]
          exact if_neg hf
        rw [hstep]
        exact ⟨h1, h2⟩

theorem foldl_form_keys (evs : List HtmlEvent) :
    ∀ st : FormState, (∀ f ∈ st.forms, ∀ p ∈ f.inputs, p.1 ≠ "") →
      (∀ g, st.current_form = some g → ∀ p ∈ g.inputs, p.1 ≠ "") →
      ∀ f ∈ (evs.foldl form_step st).forms, ∀ p ∈ f.inputs, p.1 ≠ "" := by
  induction evs with
  | nil => exact fun st h1 _ => h1
  | cons e evs ih =>
    intro st h1 h2
    have hk := form_step_keys st e h1 h2
    exact ih _ hk.1 hk.2

/-- C8: the form extractor defaults a missing action to the empty string and
a missing method to GET (methods are uppercased); named inputs are recorded
with the value defaulting to the empty string and the last occurrence of a
repeated name winning, unnamed inputs are dropped, so no emitted mapping
contains an empty key; a descriptor is appended to the output only at a
closing form tag; and the concrete one-form page yields exactly the expected
descriptor. -/
theorem C8_form_extractor :
    (∀ (st : FormState) (ev : HtmlEvent),
       (form_step st ev).forms = st.forms ∨ ev = HtmlEvent.endTag "form") ∧
    (∀ evs : List HtmlEvent, ∀ f ∈ (evs.foldl form_step initFormState).forms,
       ∀ p ∈ f.inputs, p.1 ≠ "") ∧
    (∀ (st : FormState) (attrs : List (String × String)),
       (form_step st (HtmlEvent.startTag "form" attrs)).current_form =
         some (OpenForm.mk (attrGetD attrs "action" "")
                 (pyUpper (attrGetD attrs "method" "GET")) [])) ∧
    (∀ (attrs : List (String × String)) (k d : String),
       attrGet attrs k = none → attrGetD attrs k d = d) ∧
    pyUpper "GET" = "GET" ∧
    (∀ (st : FormState) (f : OpenForm) (attrs : List (String × String)),
       st.current_form = some f →
       (attrGet attrs "name" = none →
          form_step st (HtmlEvent.startTag "input" attrs) = st) ∧
       (∀ n, attrGet attrs "name" = some n → n ≠ "" →
          (form_step st (HtmlEvent.startTag "input" attrs)).current_form =
            some (OpenForm.mk f.action f.method
                    (dictInsert f.inputs n (attrGetD attrs "value" ""))))) ∧
    (∀ (d : List (String × String)) (k v : String),
       dictLookup (dictInsert d k v) k = some v) ∧
    (∀ (d : List (String × String)) (k v k' : String), k' ≠ k →
       dictLookup (dictInsert d k v) k' = dictLookup d k') ∧
    FormFinder_forms
        "<form action=\"/confirm\" method=\"POST\"><input name=\"token\" value=\"abc\"></form>" =
      [⟨"/confirm", "POST", [("token", "abc")], ""⟩] := by
  refine ⟨?_, ?_, ?_, ?_, by decide, ?_, dictInsert_lookup_self, ?_, by decide⟩
  · intro st ev
    cases ev with
    | startTag tag attrs =>
      left
      by_cases hf : tag = "form"
      · rw [form_step_start, if_pos hf]
      · by_cases hi : tag = "input"
        · cases hcf : st.current_form with
          | none => rw [form_step_start, if_neg hf, if_pos hi, hcf]
          | some f =>
            cases hn : attrGet attrs "name" with
            | none => rw [form_step_start, if_neg hf, if_pos hi, hcf, hn]
            | some name =>
              by_cases hne : name = ""
              · have hstep : form_step st (HtmlEvent.startTag tag attrs) = st := by
                  rw [form_step_start, if_neg hf, if_pos hi, hcf, hn]
                  exact if_pos hne
                rw [hstep]
              · have hstep : form_step st (HtmlEvent.startTag tag attrs) =
                    { st with current_form := some (OpenForm.mk f.action f.method (dictInsert f.inputs name (attrGetD attrs "value" ""))) } := by
                  rw [form_step_start, if_neg hf, if_pos hi, hcf, hn]
                  exact if_neg hne
                rw [hstep]
        · rw [form_step_start, if_neg hf, if_neg hi]
    | data s =>
      left
      cases hcf : st.current_form with
      | none => rw [form_step_data_eq, hcf]
      | some f => rw [form_step_data_eq, hcf]
    | endTag tag =>
      by_cases hf : tag = "form"
      · right; rw [hf]
      · left
        cases hcf : st.current_form with
        | none => rw [form_step_end_eq, hcf]
        | some f =>
          have hstep : form_step st (HtmlEvent.endTag tag) = st := by
            rw [form_step_end_eq, hcf]
            exact if_neg hf
          rw [hstep]
  · intro evs
    exact foldl_form_keys evs initFormState (by intro f hf; simp [initFormState] at hf)
      (by intro g hg; simp [initFormState] at hg)
  · intro st attrs
    rw [form_step_start, if_pos rfl]
  · intro attrs k d h
    unfold attrGetD
    rw [h]
    rfl
  · intro st f attrs hcf
    constructor
    · intro hn
      rw [form_step_start, if_neg (by decide), if_pos rfl, hcf, hn]
    · intro n hn hne
      have hstep : form_step st (HtmlEvent.startTag "input" attrs) =
          { st with current_form := some (OpenForm.mk f.action f.method (dictInsert f.inputs n (attrGetD attrs "value" ""))) } := by
        rw [form_step_start, if_neg (by decide), if_pos rfl, hcf, hn]
        exact if_neg hne
      rw [hstep]
  · intro d k v k' hne
    exact dictInsert_lookup_other d k v k' hne

/-- Witness for C8: recording a named input inside a form inserts the
name/value pair into the current descriptor. -/
theorem C8_form_extractor_witness :
    (form_step ⟨[], some ⟨"/c", "POST", []⟩, []⟩
        (HtmlEvent.startTag "input" [("name", "token"), ("value", "abc")])).current_form =
      some (OpenForm.mk "/c" "POST" (dictInsert [] "token" "abc")) :=
  ((C8_form_extractor.2.2.2.2.2.1 ⟨[], some ⟨"/c", "POST", []⟩, []⟩ ⟨"/c", "POST", []⟩
      [("name", "token"), ("value", "abc")] rfl).2) "token" rfl (by decide)

end Fasttail
